import Mathlib

/-!
Shallow embedding of the GIF-Automator program (src/main.py) and proofs of
the specification claims about it.

Python strings are modelled as `List Char`; machine floats that the program
only ever parses, divides and ceils are modelled as `ℚ`; the effects of each
stage (directory creation, external process invocations, UI automation
actions, status-display updates) are modelled as explicit event traces.
-/

namespace GifAutomator

/-- The whitespace characters stripped by Python's str.strip() (ASCII subset;
the program only ever meets ASCII whitespace from tool output). -/
def pyWhitespaceChars : List Char := [' ', '\t', '\n', '\r', '\x0b', '\x0c']

/-- Python s.strip(chars): drop characters of `cs` from both ends.
Stripping the right end first and then the left end gives the same result
as Python's simultaneous two-sided strip. -/
def stripChars (cs : List Char) (s : List Char) : List Char :=
  List.dropWhile (fun c => cs.contains c) (List.rdropWhile (fun c => cs.contains c) s)

/-- Python s.strip() with no argument: strip whitespace from both ends. -/
def pyStrip (s : List Char) : List Char := stripChars pyWhitespaceChars s

/-- Python s.replace(old, '') for a single character old: every occurrence
of the character is removed. -/
def pyRemoveChar (s : List Char) (c : Char) : List Char :=
  s.filter (fun a => a ≠ c)

/-- Python s.replace(" ", "_") used on the video title. -/
def pyReplaceSpaceUnderscore (s : List Char) : List Char :=
  s.map (fun c => if c = ' ' then '_' else c)

/-- The invalid Windows filename characters removed by sanitize_filename
(main.py line 19): the string '<>:"/\\|?*'. -/
def invalid_chars : List Char := ['<', '>', ':', '"', '/', '\\', '|', '?', '*']

/-- main.py lines 14-30, sanitize_filename: remove each invalid character in
turn, truncate to 100 characters when longer, then name.strip().strip('.'). -/
def sanitize_filename (name : List Char) : List Char :=
  let n1 := invalid_chars.foldl pyRemoveChar name
  let n2 := if 100 < n1.length then n1.take 100 else n1
  stripChars ['.'] (pyStrip n2)

/-- ASCII decimal digit test. -/
def isAsciiDigit (c : Char) : Bool := '0' ≤ c && c ≤ '9'

/-- Numeric value of an ASCII digit character. -/
def digitVal (c : Char) : ℕ := c.toNat - '0'.toNat

/-- Value of a digit string read in base 10. -/
def digitsToNat (l : List Char) : ℕ :=
  l.foldl (fun a c => 10 * a + digitVal c) 0

/-- Exponent part after an e or E: optional sign, then one or more digits
consuming the rest of the string. -/
def parseExponent (l : List Char) : Option ℤ :=
  let (sgn, l2) : ℤ × List Char :=
    match l with
    | '+' :: t => (1, t)
    | '-' :: t => (-1, t)
    | _ => (1, l)
  let (ds, rest) := l2.span isAsciiDigit
  if ds = [] ∨ rest ≠ [] then none else some (sgn * (digitsToNat ds : ℤ))

/-- Python float(s), as used on the probe output (main.py line 92), modelled
on finite decimal literals: surrounding whitespace, an optional sign, an
integer part and/or a fractional part, and an optional decimal exponent.
The inf/nan spellings and digit-group underscores accepted by Python are
outside the model; no input met by the program uses them. -/
def pyFloatParse (s : List Char) : Option ℚ :=
  let t := pyStrip s
  let (sgn, t1) : ℚ × List Char :=
    match t with
    | '+' :: r => (1, r)
    | '-' :: r => (-1, r)
    | _ => (1, t)
  let (ip, t2) := t1.span isAsciiDigit
  let (fp, t3) : List Char × List Char :=
    match t2 with
    | '.' :: r => r.span isAsciiDigit
    | _ => ([], t2)
  if ip = [] ∧ fp = [] then none
  else
    let mantissa : ℚ := (digitsToNat ip : ℚ) + (digitsToNat fp : ℚ) / (10 : ℚ) ^ fp.length
    match t3 with
    | [] => some (sgn * mantissa)
    | c :: r =>
      if c = 'e' ∨ c = 'E' then
        match parseExponent r with
        | some e => some (sgn * mantissa * (10 : ℚ) ^ e)
        | none => none
      else none

/-- os.path.join on the Windows paths this program uses: the left part is a
non-empty absolute path not ending in a separator and the right part is
relative, so join inserts a single backslash. -/
def osPathJoin (a b : List Char) : List Char := a ++ '\\' :: b

/-- One observable effect of the segmenter (video_to_gifs). -/
inductive SegEvent
  | ensureDir (dir : List Char)
  | durationError
  | ffmpegCall (start dur : ℚ) (input output : List Char) (fps : ℕ)
deriving DecidableEq

/-- main.py line 100: num_clips = math.ceil(duration / clip_length). -/
def num_clips (duration clip_length : ℚ) : ℤ := ⌈duration / clip_length⌉

/-- main.py lines 71-118, video_to_gifs, as an event trace. The stdout of the
ffprobe subprocess is an input of the model.  The directory is ensured first;
if float(stdout.strip()) fails the function logs an error and returns;
otherwise ffmpeg is invoked once per clip index i in range(num_clips) with
start offset i * clip_length and duration clip_length, writing
output_dir/output_{i+1}.gif. -/
def video_to_gifs (video_path probeStdout output_dir : List Char)
    (clip_length : ℚ := 3) (fps : ℕ := 15) : List SegEvent :=
  SegEvent.ensureDir output_dir ::
    match pyFloatParse (pyStrip probeStdout) with
    | none => [SegEvent.durationError]
    | some duration =>
      (List.range (num_clips duration clip_length).toNat).map fun (i : ℕ) =>
        SegEvent.ffmpegCall ((i : ℚ) * clip_length) clip_length video_path
          (osPathJoin output_dir
            ("output_".data ++ (Nat.repr (i + 1)).data ++ ".gif".data)) fps

/-- The (start, duration) arguments of the transcoder invocations in a
segmenter trace, in order. -/
def ffmpegIntervals (evs : List SegEvent) : List (ℚ × ℚ) :=
  evs.filterMap fun e =>
    match e with
    | SegEvent.ffmpegCall s d _ _ _ => some (s, d)
    | _ => none

/-- The hardcoded base directory r"C:\Users\harip\ALL TEST" used at main.py
lines 353 and 430. -/
def allTestBase : List Char := "C:\\Users\\harip\\ALL TEST".data

/-- main.py line 429 (main flow): folder_name =
sanitize_filename(video_title.replace(" ", "_") + "_gifs"). -/
def mainFolderName (video_title : List Char) : List Char :=
  sanitize_filename (pyReplaceSpaceUnderscore video_title ++ "_gifs".data)

/-- main.py line 430 (main flow): final_output_dir =
os.path.join(r"C:\Users\harip\ALL TEST", folder_name). -/
def final_output_dir (video_title : List Char) : List Char :=
  osPathJoin allTestBase (mainFolderName video_title)

/-- main.py line 352 (GiphyUploader.start_process): folder_name =
sanitize_filename(self.video_title.replace(" ", "_") + "_gifs"). -/
def uploaderFolderName (video_title : List Char) : List Char :=
  sanitize_filename (pyReplaceSpaceUnderscore video_title ++ "_gifs".data)

/-- main.py line 353 (GiphyUploader.start_process): gif_directory =
os.path.join(r"C:\Users\harip\ALL TEST", folder_name). -/
def gif_directory (video_title : List Char) : List Char :=
  osPathJoin allTestBase (uploaderFolderName video_title)

/-- One observable effect of the top-level script (main.py lines 401-459). -/
inductive MainEvent
  | exitNoUrl
  | exitDownloadFailed
  | seg (e : SegEvent)
  | uploaderStart (video_title : List Char)
deriving DecidableEq

/-- main.py lines 401-459, the top-level flow, as an event trace.  The
download outcome (None on a caught download exception, otherwise the path
and title), the filesystem existence test and the ffprobe stdout are inputs
of the model.  The URL is stripped; an empty URL exits; a falsy (None or
empty) downloaded path or a non-existing path exits before segmentation;
otherwise the segmenter runs on the computed output directory and then the
uploader is started. -/
def mainFlow (urlInput : List Char) (downloadResult : Option (List Char × List Char))
    (pathExists : List Char → Bool) (probeStdout : List Char) : List MainEvent :=
  let video_link := pyStrip urlInput
  if video_link = [] then [MainEvent.exitNoUrl]
  else
    match downloadResult with
    | none => [MainEvent.exitDownloadFailed]
    | some (downloaded_video_path, video_title) =>
      if downloaded_video_path = [] ∨ pathExists downloaded_video_path = false then
        [MainEvent.exitDownloadFailed]
      else
        (video_to_gifs downloaded_video_path probeStdout
            (final_output_dir video_title)).map MainEvent.seg ++
          [MainEvent.uploaderStart video_title]

/-- Python s.split(sep) for a single-character separator: at least one chunk,
empty chunks kept. -/
def pySplitChar (sep : Char) : List Char → List (List Char)
  | [] => [[]]
  | c :: t =>
    if c = sep then [] :: pySplitChar sep t
    else
      match pySplitChar sep t with
      | [] => [[c]]
      | h :: r => (c :: h) :: r

/-- Append a suffix to the last chunk of a non-empty chunk list (for the
empty chunk list, produce one chunk). -/
def appendLast (w : List Char) : List (List Char) → List (List Char)
  | [] => [w]
  | [h] => [h ++ w]
  | h :: h2 :: r => h :: appendLast w (h2 :: r)

/-- main.py line 300: tags = [tag.strip() for tag in
text_response.replace("\n", "").split(",") if tag.strip()], where
text_response = response.text.strip() (line 299). -/
def parseTags (responseText : List Char) : List (List Char) :=
  ((pySplitChar ',' ((pyStrip responseText).filter (fun c => c ≠ '\n'))).map
    pyStrip).filter (fun t => t ≠ [])

/-- Modelled from the spec's words, for comparison with `parseTags`: "the
parsed tag list is obtained by splitting the response on commas, trimming
whitespace from each entry, and dropping empty entries". -/
def parseTagsSpec (responseText : List Char) : List (List Char) :=
  ((pySplitChar ',' responseText).map pyStrip).filter (fun t => t ≠ [])

/-- main.py line 284: the default tag list of the gemini-unavailable path. -/
def default_tags_unavailable : List (List Char) :=
  ["#gif".data, "#animation".data, "#funny".data, "#meme".data,
    "#trending".data, "#viral".data]

/-- main.py line 324: the default tag list of the exception handler. -/
def default_tags_error : List (List Char) :=
  ["#gif".data, "#animation".data, "#fun".data, "#meme".data,
    "#trending".data, "#viral".data]

/-- main.py line 303: the default tag list substituted when the parsed list
is empty. -/
def default_tags_empty : List (List Char) :=
  ["#gif".data, "#animation".data, "#fun".data, "#trending".data,
    "#viral".data, "#meme".data]

/-- main.py line 297: the generation prompt built from the topic. -/
def tagPrompt (topic : List Char) : List Char :=
  "Generate 14 short, SEO-friendly hashtags for ".data ++ topic ++
    ". First always include the name I have given. Only output the tags separated by commas. Include 1 tag for hero and another tag for heroine, and one dedicated tag which is most popular or viral.".data

/-- One observable effect of GiphyUploader.generate_and_paste_tags. -/
inductive TagEvent
  | statusMsg (msg : List Char)
  | queryModel (prompt : List Char)
  | pasteTag (tag : List Char)
deriving DecidableEq

/-- main.py lines 280-330, GiphyUploader.generate_and_paste_tags, as an event
trace.  The availability flag set by setup_gemini and the outcome of the
generation call (raised exception or response text) are inputs of the model.
Each pasted tag (clipboard copy, ctrl+v, enter) is one pasteTag event. -/
def generate_and_paste_tags (gemini_available : Bool)
    (modelResponse : Except (List Char) (List Char)) (topic : List Char) :
    List TagEvent :=
  if gemini_available = false then
    TagEvent.statusMsg "Gemini AI not available - using default tags".data ::
      default_tags_unavailable.map TagEvent.pasteTag
  else
    TagEvent.statusMsg "Generating tags with AI...".data ::
      TagEvent.queryModel (tagPrompt topic) ::
        match modelResponse with
        | Except.error _ =>
          TagEvent.statusMsg "Error generating tags - using defaults".data ::
            default_tags_error.map TagEvent.pasteTag
        | Except.ok text =>
          let tags := parseTags text
          let tags := if tags = [] then default_tags_empty else tags
          tags.map TagEvent.pasteTag ++
            [TagEvent.statusMsg "Tags successfully added!".data]

/-- The tags pasted into the upload form by a tag-routine trace, in order. -/
def emittedTags (evs : List TagEvent) : List (List Char) :=
  evs.filterMap fun e =>
    match e with
    | TagEvent.pasteTag t => some t
    | _ => none

/-- One action of the uploader's automation sequence. -/
inductive UAction
  | statusMsg (msg : List Char)
  | openUrl (url : List Char)
  | sleepSecs (secs : ℚ)
  | clickAt (x y : ℕ)
  | typeWrite (text : List Char)
  | pressKey (key : List Char)
  | hotkeyPress (k1 k2 : List Char)
  | tagsRoutine (topic : List Char)
deriving DecidableEq

/-- main.py lines 275-278, GiphyUploader.click_at_position: a status update,
a click at the coordinate, and a one second sleep. -/
def click_at_position (x y : ℕ) (description : List Char) : List UAction :=
  [UAction.statusMsg ("Step: ".data ++ description), UAction.clickAt x y,
    UAction.sleepSecs 1]

/-- main.py lines 376-378: the countdown loop for i in range(45, 0, -5),
each iteration a status update and a five second sleep. -/
def countdownWait : List UAction :=
  (List.range 9).flatMap fun (k : ℕ) =>
    [UAction.statusMsg ("Processing... ".data ++
        (Nat.repr (45 - 5 * k)).data ++ " seconds remaining".data),
      UAction.sleepSecs 5]

/-- main.py lines 335-390: the body of the try block of
GiphyUploader.start_process, as the ordered list of automation actions. -/
def uploadScript (video_title : List Char) : List UAction :=
  [UAction.statusMsg "Opening GIPHY website...".data,
    UAction.openUrl "https://giphy.com/".data,
    UAction.sleepSecs 5] ++
  click_at_position 1229 191 "Clicking on upload button".data ++
  click_at_position 705 714 "Clicking on file selection area".data ++
  click_at_position 445 167 "Clicking on path input".data ++
  [UAction.statusMsg ("Pasting file path: ".data ++ gif_directory video_title),
    UAction.typeWrite (gif_directory video_title),
    UAction.pressKey "enter".data,
    UAction.sleepSecs 2] ++
  click_at_position 765 165 "Clicking on name field".data ++
  [UAction.statusMsg ("Entering name: ".data ++ video_title),
    UAction.typeWrite video_title,
    UAction.sleepSecs 5] ++
  click_at_position 376 234 "Clicking on file area to focus".data ++
  [UAction.hotkeyPress "ctrl".data "a".data,
    UAction.sleepSecs 1] ++
  click_at_position 770 628 "Confirming selection - Clicking Open".data ++
  [UAction.statusMsg "Waiting for GIF to upload and process (45 seconds)...".data] ++
  countdownWait ++
  click_at_position 1211 603 "Opening tags section".data ++
  [UAction.sleepSecs 2,
    UAction.tagsRoutine video_title] ++
  click_at_position 1257 1035 "Final upload".data ++
  [UAction.statusMsg "Upload process completed successfully!".data]

/-- An exception that an automation action can raise: the pyautogui
fail-safe (pointer trapped in a screen corner) or any other exception with
its message. -/
inductive PyExc
  | failSafe
  | other (msg : List Char)
deriving DecidableEq

/-- The status message set by the except clauses of start_process
(main.py lines 392-395). -/
def excStatusMessage : PyExc → List Char
  | PyExc.failSafe => "Process was aborted by moving mouse to corner".data
  | PyExc.other m => "An error occurred: ".data ++ m

/-- Run a list of actions in order, numbering them from n; the environment
designates which actions raise.  Returns the actions that executed and the
first raised exception, if any: an exception skips everything after it. -/
def runSeq (env : ℕ → Option PyExc) : ℕ → List UAction → List UAction × Option PyExc
  | _, [] => ([], none)
  | n, a :: rest =>
    match env n with
    | some e => ([], some e)
    | none =>
      let r := runSeq env (n + 1) rest
      (a :: r.1, r.2)

/-- main.py lines 332-395, GiphyUploader.start_process: the initial status
update, then the try block over `uploadScript`; a FailSafeException or any
other exception ends the block and is reported by the matching except
clause as a status update.  The function is total: no exception escapes. -/
def start_process (env : ℕ → Option PyExc) (video_title : List Char) :
    List UAction :=
  UAction.statusMsg "Starting GIPHY upload process...".data ::
    (let r := runSeq env 0 (uploadScript video_title)
     match r.2 with
     | none => r.1
     | some e => r.1 ++ [UAction.statusMsg (excStatusMessage e)])

/-! Helper lemmas about the segmenter trace. -/

theorem video_to_gifs_parsed (video s dir : List Char) (D L : ℚ) (fps : ℕ)
    (hp : pyFloatParse (pyStrip s) = some D) :
    video_to_gifs video s dir L fps =
      SegEvent.ensureDir dir ::
        (List.range (num_clips D L).toNat).map (fun (i : ℕ) =>
          SegEvent.ffmpegCall ((i : ℚ) * L) L video
            (osPathJoin dir
              ("output_".data ++ (Nat.repr (i + 1)).data ++ ".gif".data)) fps) := by
  unfold video_to_gifs
  rw [hp]

theorem ffmpegIntervals_parsed (video s dir : List Char) (D L : ℚ) (fps : ℕ)
    (hp : pyFloatParse (pyStrip s) = some D) :
    ffmpegIntervals (video_to_gifs video s dir L fps) =
      (List.range (num_clips D L).toNat).map (fun (i : ℕ) => ((i : ℚ) * L, L)) := by
  rw [video_to_gifs_parsed video s dir D L fps hp]
  unfold ffmpegIntervals
  rw [List.filterMap_cons_none rfl, List.filterMap_map]
  exact congrFun (List.filterMap_eq_map _) _

/-- Claim C1: for any probed duration D ≥ 0 and clip length L > 0, the number
of transcoder invocations the segmenter performs equals ceil(D / L). -/
theorem claim_C1 (video s dir : List Char) (D L : ℚ) (fps : ℕ)
    (hp : pyFloatParse (pyStrip s) = some D) (hD : 0 ≤ D) (hL : 0 < L) :
    ((ffmpegIntervals (video_to_gifs video s dir L fps)).length : ℤ) = ⌈D / L⌉ := by
  rw [ffmpegIntervals_parsed video s dir D L fps hp, List.length_map,
    List.length_range]
  exact Int.toNat_of_nonneg (Int.ceil_nonneg (div_nonneg hD hL.le))

/-- Witness for C1: probe output "10" and the default clip length 3 plan
exactly 4 clips, as the spec's example demands. -/
theorem claim_C1_witness :
    pyFloatParse (pyStrip "10".data) = some 10 ∧ (0 : ℚ) ≤ 10 ∧ (0 : ℚ) < 3 ∧
    ((ffmpegIntervals (video_to_gifs "vid.mp4".data "10".data "out".data 3 15)).length : ℤ) =
      4 := by
  have hp : pyFloatParse (pyStrip "10".data) = some 10 := by
    show some ((1 : ℚ) * ((digitsToNat ['1', '0'] : ℚ) +
      (digitsToNat [] : ℚ) / (10 : ℚ) ^ (0 : ℕ))) = some 10
    norm_num [digitsToNat, digitVal, Char.toNat]
    all_goals decide
  refine ⟨hp, by norm_num, by norm_num, ?_⟩
  rw [claim_C1 "vid.mp4".data "10".data "out".data 10 3 15 hp (by norm_num)
    (by norm_num)]
  norm_num [Int.ceil_eq_iff]

/-- Claim C5: with a parsed duration and L > 0, the transcoder invocations
are exactly start = i * L and requested duration L for i in [0, count); the
half-open intervals of distinct indices never overlap; and when at least one
clip is planned, the final clip's logical length D - (count - 1) * L is at
most L (the requested duration is L regardless: left as-is). -/
theorem claim_C5 (video s dir : List Char) (D L : ℚ) (fps : ℕ)
    (hp : pyFloatParse (pyStrip s) = some D) (hL : 0 < L) :
    (video_to_gifs video s dir L fps =
      SegEvent.ensureDir dir ::
        (List.range (num_clips D L).toNat).map (fun (i : ℕ) =>
          SegEvent.ffmpegCall ((i : ℚ) * L) L video
            (osPathJoin dir
              ("output_".data ++ (Nat.repr (i + 1)).data ++ ".gif".data)) fps)) ∧
    (∀ i j : ℕ, i ≠ j → ∀ t : ℚ,
      ¬((i : ℚ) * L ≤ t ∧ t < (i : ℚ) * L + L ∧
        (j : ℚ) * L ≤ t ∧ t < (j : ℚ) * L + L)) ∧
    (1 ≤ num_clips D L → D - ((num_clips D L : ℚ) - 1) * L ≤ L) := by
  have key : ∀ a b : ℕ, a < b → ∀ t : ℚ,
      t < (a : ℚ) * L + L → (b : ℚ) * L ≤ t → False := by
    intro a b hab t h2 h3
    have hcast : (a : ℚ) + 1 ≤ (b : ℚ) := by exact_mod_cast hab
    have h5 : (a : ℚ) * L + L ≤ (b : ℚ) * L :=
      calc (a : ℚ) * L + L = ((a : ℚ) + 1) * L := by ring
        _ ≤ (b : ℚ) * L := mul_le_mul_of_nonneg_right hcast hL.le
    linarith
  refine ⟨video_to_gifs_parsed video s dir D L fps hp, ?_, ?_⟩
  · intro i j hij t ht
    obtain ⟨h1, h2, h3, h4⟩ := ht
    rcases hij.lt_or_lt with h | h
    · exact key i j h t h2 h3
    · exact key j i h t h4 h1
  · intro hn
    have h1 : D / L ≤ ((num_clips D L : ℤ) : ℚ) := by
      exact_mod_cast Int.le_ceil (D / L)
    have h2 : D ≤ (num_clips D L : ℚ) * L := (div_le_iff₀ hL).mp h1
    have h3 : (num_clips D L : ℚ) * L - L = ((num_clips D L : ℚ) - 1) * L := by
      ring
    linarith

/-- Witness for C5 at probe output "10" and clip length 3. -/
theorem claim_C5_witness :
    pyFloatParse (pyStrip "10".data) = some 10 ∧ (0 : ℚ) < 3 ∧
    ((video_to_gifs "vid.mp4".data "10".data "out".data 3 15 =
      SegEvent.ensureDir "out".data ::
        (List.range (num_clips 10 3).toNat).map (fun (i : ℕ) =>
          SegEvent.ffmpegCall ((i : ℚ) * 3) 3 "vid.mp4".data
            (osPathJoin "out".data
              ("output_".data ++ (Nat.repr (i + 1)).data ++ ".gif".data)) 15)) ∧
    (∀ i j : ℕ, i ≠ j → ∀ t : ℚ,
      ¬((i : ℚ) * 3 ≤ t ∧ t < (i : ℚ) * 3 + 3 ∧
        (j : ℚ) * 3 ≤ t ∧ t < (j : ℚ) * 3 + 3)) ∧
    (1 ≤ num_clips 10 3 → (10 : ℚ) - ((num_clips 10 3 : ℚ) - 1) * 3 ≤ 3)) := by
  have hp : pyFloatParse (pyStrip "10".data) = some 10 := by
    show some ((1 : ℚ) * ((digitsToNat ['1', '0'] : ℚ) +
      (digitsToNat [] : ℚ) / (10 : ℚ) ^ (0 : ℕ))) = some 10
    norm_num [digitsToNat, digitVal, Char.toNat]
    all_goals decide
  exact ⟨hp, by norm_num,
    claim_C5 "vid.mp4".data "10".data "out".data 10 3 15 hp (by norm_num)⟩

/-- Claim C6: when the probe output does not parse as a float, the segmenter
logs an error and returns, with no transcoder invocation. -/
theorem claim_C6 (video s dir : List Char) (L : ℚ) (fps : ℕ)
    (hp : pyFloatParse (pyStrip s) = none) :
    video_to_gifs video s dir L fps =
      [SegEvent.ensureDir dir, SegEvent.durationError] ∧
    ffmpegIntervals (video_to_gifs video s dir L fps) = [] := by
  have h : video_to_gifs video s dir L fps =
      [SegEvent.ensureDir dir, SegEvent.durationError] := by
    unfold video_to_gifs
    rw [hp]
  refine ⟨h, ?_⟩
  rw [h]
  rfl

/-- Witness for C6 at the spec's example probe output "abc". -/
theorem claim_C6_witness :
    pyFloatParse (pyStrip "abc".data) = none ∧
    (video_to_gifs "vid.mp4".data "abc".data "out".data 3 15 =
      [SegEvent.ensureDir "out".data, SegEvent.durationError] ∧
    ffmpegIntervals (video_to_gifs "vid.mp4".data "abc".data "out".data 3 15) = []) :=
  ⟨by decide, claim_C6 "vid.mp4".data "abc".data "out".data 3 15 (by decide)⟩

/-- Counterexample to C10 as stated: the probe output "-4" parses to a
duration ≤ 0, but the computed clip count math.ceil(-4 / 3) is -1, not 0. -/
theorem claim_C10_counterexample :
    pyFloatParse (pyStrip "-4".data) = some (-4) ∧ (-4 : ℚ) ≤ 0 ∧
    num_clips (-4) 3 = -1 := by
  refine ⟨?_, by norm_num, ?_⟩
  · show some ((-1 : ℚ) * ((digitsToNat ['4'] : ℚ) +
      (digitsToNat [] : ℚ) / (10 : ℚ) ^ (0 : ℕ))) = some (-4)
    norm_num [digitsToNat, digitVal, Char.toNat]
    all_goals decide
  · unfold num_clips
    norm_num [Int.ceil_eq_iff]

/-- Claim C10 amended: a parsed duration ≤ 0 gives a clip count ≤ 0 (zero
only when -L < D ≤ 0), so the transcoder runs zero times and the trace is
exactly the already-performed directory creation. -/
theorem claim_C10_amended (video s dir : List Char) (D L : ℚ) (fps : ℕ)
    (hp : pyFloatParse (pyStrip s) = some D) (hD : D ≤ 0) (hL : 0 < L) :
    num_clips D L ≤ 0 ∧
    video_to_gifs video s dir L fps = [SegEvent.ensureDir dir] := by
  have hdiv : D / L ≤ 0 := div_nonpos_iff.mpr (Or.inr ⟨hD, hL.le⟩)
  have hn : num_clips D L ≤ 0 := by
    unfold num_clips
    exact Int.ceil_le.mpr (by push_cast; exact hdiv)
  refine ⟨hn, ?_⟩
  rw [video_to_gifs_parsed video s dir D L fps hp, Int.toNat_eq_zero.mpr hn]
  rfl

/-- Witness for the amended C10 at the claim's example duration 0.0. -/
theorem claim_C10_amended_witness :
    pyFloatParse (pyStrip "0.0".data) = some 0 ∧ (0 : ℚ) ≤ 0 ∧ (0 : ℚ) < 3 ∧
    (num_clips 0 3 ≤ 0 ∧
      video_to_gifs "vid.mp4".data "0.0".data "out".data 3 15 =
        [SegEvent.ensureDir "out".data]) := by
  have hp : pyFloatParse (pyStrip "0.0".data) = some 0 := by
    show some ((1 : ℚ) * ((digitsToNat ['0'] : ℚ) +
      (digitsToNat ['0'] : ℚ) / (10 : ℚ) ^ (1 : ℕ))) = some 0
    norm_num [digitsToNat, digitVal, Char.toNat]
  exact ⟨hp, le_refl 0, by norm_num,
    claim_C10_amended "vid.mp4".data "0.0".data "out".data 0 3 15 hp
      (le_refl 0) (by norm_num)⟩

/-- Claim C4: the GIF output directory computed in the main flow
(main.py lines 429-430) and the one computed inside the uploader's
automation sequence (main.py lines 352-353) agree for every video title:
the duplicated code applies the same sanitization in the same order to the
same title and joins it to the same base path. -/
theorem claim_C4 (video_title : List Char) :
    gif_directory video_title = final_output_dir video_title := rfl

/-! Helper lemmas about character removal and stripping. -/

theorem mem_foldl_pyRemoveChar (l : List Char) :
    ∀ (s : List Char) (a : Char), a ∈ l.foldl pyRemoveChar s → a ∈ s ∧ a ∉ l := by
  induction l with
  | nil =>
    intro s a h
    exact ⟨h, by simp⟩
  | cons c t ih =>
    intro s a h
    rw [List.foldl_cons] at h
    obtain ⟨h1, h2⟩ := ih (pyRemoveChar s c) a h
    unfold pyRemoveChar at h1
    rw [List.mem_filter] at h1
    obtain ⟨hs, hne⟩ := h1
    refine ⟨hs, ?_⟩
    simp only [List.mem_cons]
    rintro (rfl | hmem)
    · simp at hne
    · exact h2 hmem

theorem stripChars_subset (cs s : List Char) : stripChars cs s ⊆ s := by
  unfold stripChars
  intro a ha
  exact (List.rdropWhile_prefix _ s).sublist.subset
    ((List.dropWhile_suffix _).sublist.subset ha)

theorem stripChars_length_le (cs s : List Char) :
    (stripChars cs s).length ≤ s.length :=
  le_trans (List.dropWhile_suffix _).sublist.length_le
    (List.rdropWhile_prefix _ s).sublist.length_le

theorem head?_dropWhile_not (p : Char → Bool) :
    ∀ (l : List Char) (a : Char), (l.dropWhile p).head? = some a → p a = false := by
  intro l
  induction l with
  | nil =>
    intro a h
    simp at h
  | cons c t ih =>
    intro a h
    rw [List.dropWhile_cons] at h
    by_cases hc : p c
    · rw [if_pos hc] at h
      exact ih a h
    · rw [if_neg hc] at h
      simp only [List.head?_cons, Option.some.injEq] at h
      subst h
      exact Bool.not_eq_true _ |>.mp hc

theorem getLast?_stripChars_not (cs s : List Char) (a : Char)
    (h : (stripChars cs s).getLast? = some a) : cs.contains a = false := by
  unfold stripChars at h
  obtain ⟨pre, hpre⟩ :=
    List.dropWhile_suffix (l := List.rdropWhile (fun c => cs.contains c) s)
      (fun c => cs.contains c)
  have hne : (List.rdropWhile (fun c => cs.contains c) s).dropWhile
      (fun c => cs.contains c) ≠ [] := by
    intro hnil
    rw [hnil] at h
    simp at h
  have h2 : (List.rdropWhile (fun c => cs.contains c) s).getLast? = some a := by
    rw [← hpre, List.getLast?_append_of_ne_nil pre hne, h]
  have hmne : List.rdropWhile (fun c => cs.contains c) s ≠ [] := by
    intro hnil
    rw [hnil] at h2
    simp at h2
  have h3 := List.rdropWhile_last_not (fun c => cs.contains c) s hmne
  rw [List.getLast?_eq_getLast _ hmne, Option.some.injEq] at h2
  rw [h2] at h3
  exact Bool.not_eq_true _ |>.mp h3

/-- Counterexample to C2 as stated: on input ". a" the code strips whitespace
before dots, so removing the leading dot uncovers a leading space that stays:
the result does not have all leading spaces stripped. -/
theorem claim_C2_counterexample :
    sanitize_filename (". a".data) = " a".data ∧
    (sanitize_filename (". a".data)).head? = some ' ' := by decide

/-- Claim C2 amended: sanitize_filename removes every occurrence of each
invalid character, returns at most 100 characters, and never starts or ends
with a dot; it strips leading/trailing whitespace before stripping
leading/trailing dots, so whitespace uncovered by a removed outer dot can
remain (". a" → " a"); on "A:B*C" it returns "ABC". -/
theorem claim_C2_amended :
    (∀ s : List Char,
      (∀ a ∈ sanitize_filename s, a ∉ invalid_chars) ∧
      (sanitize_filename s).length ≤ 100 ∧
      (∀ a, (sanitize_filename s).head? = some a → a ≠ '.') ∧
      (∀ a, (sanitize_filename s).getLast? = some a → a ≠ '.')) ∧
    sanitize_filename ("A:B*C".data) = "ABC".data := by
  refine ⟨?_, by decide⟩
  intro s
  have hdef : sanitize_filename s =
      stripChars ['.'] (pyStrip
        (if 100 < (invalid_chars.foldl pyRemoveChar s).length
          then (invalid_chars.foldl pyRemoveChar s).take 100
          else invalid_chars.foldl pyRemoveChar s)) := rfl
  have hsub2 : (if 100 < (invalid_chars.foldl pyRemoveChar s).length
      then (invalid_chars.foldl pyRemoveChar s).take 100
      else invalid_chars.foldl pyRemoveChar s) ⊆
      invalid_chars.foldl pyRemoveChar s := by
    by_cases hlen : 100 < (invalid_chars.foldl pyRemoveChar s).length
    · rw [if_pos hlen]
      exact List.take_subset 100 _
    · rw [if_neg hlen]
      exact fun a ha => ha
  refine ⟨?_, ?_, ?_, ?_⟩
  · intro a ha
    rw [hdef] at ha
    have h1 := stripChars_subset pyWhitespaceChars _ (stripChars_subset ['.'] _ ha)
    exact (mem_foldl_pyRemoveChar invalid_chars s a (hsub2 h1)).2
  · rw [hdef]
    refine le_trans (stripChars_length_le ['.'] _) ?_
    refine le_trans (stripChars_length_le pyWhitespaceChars _) ?_
    by_cases hlen : 100 < (invalid_chars.foldl pyRemoveChar s).length
    · rw [if_pos hlen, List.length_take]
      exact min_le_left 100 _
    · rw [if_neg hlen]
      exact Nat.le_of_not_lt hlen
  · intro a ha
    rw [hdef] at ha
    have h1 := head?_dropWhile_not (fun c => List.contains ['.'] c) _ a ha
    intro hdot
    subst hdot
    simp at h1
  · intro a ha
    rw [hdef] at ha
    have h1 := getLast?_stripChars_not ['.'] _ a ha
    intro hdot
    subst hdot
    simp at h1

/-- Counterexample to C3 as stated: the default tag list of the
collaborator-unavailable path differs from the default tag list of the
exception path ("#funny" at main.py line 284 vs "#fun" at line 324), so the
tags emitted in the two fallback situations are not one single fixed list. -/
theorem claim_C3_counterexample :
    emittedTags (generate_and_paste_tags false (Except.error []) []) ≠
      emittedTags (generate_and_paste_tags true (Except.error []) []) := by
  decide

/-- Claim C3 amended: each fallback path emits a fixed six-item default tag
list, but they are two different lists: when the collaborator is unavailable
the list contains "#funny", while when the generation call raises the list
contains "#fun" instead. -/
theorem claim_C3_amended (topic err : List Char)
    (response : Except (List Char) (List Char)) :
    emittedTags (generate_and_paste_tags false response topic) =
      default_tags_unavailable ∧
    emittedTags (generate_and_paste_tags true (Except.error err) topic) =
      default_tags_error ∧
    default_tags_unavailable.length = 6 ∧
    default_tags_error.length = 6 ∧
    default_tags_unavailable ≠ default_tags_error := by
  exact ⟨rfl, rfl, rfl, rfl, by decide⟩

/-- Claim C7: when the fetcher produces no file (a caught download error),
or a falsy path, or a path that does not exist on disk, the run exits before
the segmenter call, so no segmenter effect — in particular no output
directory creation — ever appears in the trace. -/
theorem claim_C7 (url : List Char) (dl : Option (List Char × List Char))
    (pathExists : List Char → Bool) (probe : List Char)
    (hurl : pyStrip url ≠ [])
    (hfail : dl = none ∨
      ∃ p t, dl = some (p, t) ∧ (p = [] ∨ pathExists p = false)) :
    mainFlow url dl pathExists probe = [MainEvent.exitDownloadFailed] ∧
    ∀ e : SegEvent, MainEvent.seg e ∉ mainFlow url dl pathExists probe := by
  have h : mainFlow url dl pathExists probe = [MainEvent.exitDownloadFailed] := by
    unfold mainFlow
    rw [if_neg hurl]
    rcases hfail with rfl | ⟨p, t, rfl, hpt⟩
    · rfl
    · show (if p = [] ∨ pathExists p = false
          then [MainEvent.exitDownloadFailed]
          else (video_to_gifs p probe (final_output_dir t)).map MainEvent.seg ++
            [MainEvent.uploaderStart t]) = [MainEvent.exitDownloadFailed]
      rw [if_pos hpt]
  refine ⟨h, ?_⟩
  rw [h]
  intro e
  simp

/-- Witness for C7: a non-empty URL and a fetcher returning None. -/
theorem claim_C7_witness :
    pyStrip "u".data ≠ [] ∧
    (mainFlow "u".data none (fun _ => false) [] =
        [MainEvent.exitDownloadFailed] ∧
      ∀ e : SegEvent,
        MainEvent.seg e ∉ mainFlow "u".data none (fun _ => false) []) :=
  ⟨by decide,
    claim_C7 "u".data none (fun _ => false) [] (by decide) (Or.inl rfl)⟩

/-! Helper lemma for the uploader sequence. -/

theorem runSeq_first_fail (env : ℕ → Option PyExc) (e : PyExc) :
    ∀ (l : List UAction) (n k : ℕ), k < l.length →
      env (n + k) = some e → (∀ j, j < k → env (n + j) = none) →
      runSeq env n l = (l.take k, some e) := by
  intro l
  induction l with
  | nil =>
    intro n k hk
    simp at hk
  | cons a rest ih =>
    intro n k hk he hj
    cases k with
    | zero =>
      unfold runSeq
      rw [show env n = some e by simpa using he]
      simp
    | succ k' =>
      have h0 : env n = none := by simpa using hj 0 (Nat.succ_pos k')
      unfold runSeq
      rw [h0]
      have ih2 := ih (n + 1) k' (by simpa using Nat.lt_of_succ_lt_succ hk)
        (by rw [show n + 1 + k' = n + (k' + 1) by ring]; exact he)
        (fun j hjk => by
          rw [show n + 1 + j = n + (j + 1) by ring]
          exact hj (j + 1) (Nat.succ_lt_succ hjk))
      rw [ih2]
      simp

/-- Claim C8: when the k-th action of the uploader's automation sequence
raises (fail-safe abort or any other exception) and the earlier ones do not,
start_process still returns a trace (no exception escapes): the actions
before the failure, followed by exactly one status-display report whose text
is the matching except clause's message; no action after the failing one
executes. -/
theorem claim_C8 (env : ℕ → Option PyExc) (video_title : List Char)
    (k : ℕ) (e : PyExc)
    (hk : k < (uploadScript video_title).length)
    (he : env k = some e) (hfirst : ∀ j, j < k → env j = none) :
    start_process env video_title =
      UAction.statusMsg "Starting GIPHY upload process...".data ::
        ((uploadScript video_title).take k ++
          [UAction.statusMsg (excStatusMessage e)]) := by
  unfold start_process
  rw [runSeq_first_fail env e (uploadScript video_title) 0 k hk
    (by simpa using he) (fun j hj => by simpa using hfirst j hj)]

/-- Witness for C8: the fifth action (index 4) raises a generic exception;
the trace stops there and reports "An error occurred: boom". -/
theorem claim_C8_witness :
    (4 < (uploadScript "My Video".data).length ∧
      (fun n => if n = 4 then some (PyExc.other "boom".data) else none) 4 =
        some (PyExc.other "boom".data)) ∧
    start_process
        (fun n => if n = 4 then some (PyExc.other "boom".data) else none)
        "My Video".data =
      UAction.statusMsg "Starting GIPHY upload process...".data ::
        ((uploadScript "My Video".data).take 4 ++
          [UAction.statusMsg (excStatusMessage (PyExc.other "boom".data))]) :=
  ⟨⟨by decide, rfl⟩,
    claim_C8 (fun n => if n = 4 then some (PyExc.other "boom".data) else none)
      "My Video".data 4 (PyExc.other "boom".data) (by decide) rfl (by decide)⟩

/-! Helper lemmas for the tag-parsing comparison: stripping whitespace from
the whole response before splitting on commas does not change the list of
per-entry-stripped chunks. -/

theorem pySplitChar_ne_nil (sep : Char) : ∀ l : List Char, pySplitChar sep l ≠ [] := by
  intro l
  induction l with
  | nil => simp [pySplitChar]
  | cons c t ih =>
    unfold pySplitChar
    by_cases hc : c = sep
    · rw [if_pos hc]
      simp
    · rw [if_neg hc]
      cases h : pySplitChar sep t with
      | nil => simp
      | cons hd tl => simp

theorem pySplitChar_no_sep (sep : Char) :
    ∀ w : List Char, sep ∉ w → pySplitChar sep w = [w] := by
  intro w
  induction w with
  | nil => intro _; rfl
  | cons c t ih =>
    intro hmem
    have hc : c ≠ sep := fun hEq => hmem (hEq ▸ List.mem_cons_self c t)
    have ht : sep ∉ t := fun hIn => hmem (List.mem_cons_of_mem c hIn)
    unfold pySplitChar
    rw [if_neg hc, ih ht]

theorem pySplitChar_cons_ne (sep c : Char) (t x : List Char)
    (xs : List (List Char)) (hc : c ≠ sep) (h : pySplitChar sep t = x :: xs) :
    pySplitChar sep (c :: t) = (c :: x) :: xs := by
  unfold pySplitChar
  rw [if_neg hc, h]

theorem pySplitChar_append_no_sep (sep : Char) (w : List Char) (hw : sep ∉ w) :
    ∀ t : List Char, pySplitChar sep (t ++ w) = appendLast w (pySplitChar sep t) := by
  intro t
  induction t with
  | nil =>
    rw [List.nil_append, pySplitChar_no_sep sep w hw]
    rfl
  | cons c t' ih =>
    by_cases hc : c = sep
    · rw [List.cons_append]
      unfold pySplitChar
      rw [if_pos hc, if_pos hc, ih]
      cases h : pySplitChar sep t' with
      | nil => exact absurd h (pySplitChar_ne_nil sep t')
      | cons x xs => rfl
    · rw [List.cons_append]
      unfold pySplitChar
      rw [if_neg hc, if_neg hc, ih]
      cases h : pySplitChar sep t' with
      | nil => exact absurd h (pySplitChar_ne_nil sep t')
      | cons x xs =>
        cases xs with
        | nil => rfl
        | cons x2 xs' => rfl

theorem dropWhile_append_ne_nil (p : Char → Bool) :
    ∀ xs ys : List Char, List.dropWhile p xs ≠ [] →
      List.dropWhile p (xs ++ ys) = List.dropWhile p xs ++ ys := by
  intro xs
  induction xs with
  | nil =>
    intro ys h
    simp [List.dropWhile] at h
  | cons c t ih =>
    intro ys h
    by_cases hc : p c = true
    · rw [List.cons_append, List.dropWhile_cons, if_pos hc,
        List.dropWhile_cons, if_pos hc]
      apply ih
      rw [List.dropWhile_cons, if_pos hc] at h
      exact h
    · rw [List.cons_append, List.dropWhile_cons, if_neg hc,
        List.dropWhile_cons, if_neg hc, List.cons_append]

theorem rdropWhile_append_all (p : Char → Bool) (w : List Char)
    (hw : ∀ c ∈ w, p c = true) :
    ∀ x : List Char, List.rdropWhile p (x ++ w) = List.rdropWhile p x := by
  induction w using List.reverseRecOn with
  | nil => intro x; rw [List.append_nil]
  | append_singleton w' c ihw =>
    intro x
    have hc : p c = true := hw c (by simp)
    have hw' : ∀ a ∈ w', p a = true := fun a ha => hw a (by simp [ha])
    rw [← List.append_assoc, List.rdropWhile_concat_pos _ _ _ hc]
    exact ihw hw' x

theorem rdropWhile_cons_of_ne_nil (p : Char → Bool) (c : Char) (h : List Char)
    (hne : List.rdropWhile p h ≠ []) :
    List.rdropWhile p (c :: h) = c :: List.rdropWhile p h := by
  have hrev : List.dropWhile p h.reverse ≠ [] := by
    intro hnil
    apply hne
    rw [List.rdropWhile, hnil]
    rfl
  rw [List.rdropWhile, List.reverse_cons, dropWhile_append_ne_nil p _ _ hrev,
    List.reverse_append, List.reverse_singleton, List.rdropWhile]
  rfl

theorem pyStrip_cons_ws (c : Char) (h : List Char)
    (hc : pyWhitespaceChars.contains c = true) :
    pyStrip (c :: h) = pyStrip h := by
  show List.dropWhile _ (List.rdropWhile _ (c :: h)) =
    List.dropWhile _ (List.rdropWhile _ h)
  by_cases hnil : List.rdropWhile (fun a => pyWhitespaceChars.contains a) h = []
  · have hall : ∀ a ∈ h, pyWhitespaceChars.contains a = true :=
      List.rdropWhile_eq_nil_iff.mp hnil
    have hall2 : ∀ a ∈ c :: h, pyWhitespaceChars.contains a = true := by
      intro a ha
      rcases List.mem_cons.mp ha with rfl | hmem
      · exact hc
      · exact hall a hmem
    rw [hnil, List.rdropWhile_eq_nil_iff.mpr hall2]
  · rw [rdropWhile_cons_of_ne_nil _ c h hnil, List.dropWhile_cons, if_pos hc]

theorem pyStrip_append_ws (h w : List Char)
    (hw : ∀ c ∈ w, pyWhitespaceChars.contains c = true) :
    pyStrip (h ++ w) = pyStrip h := by
  show List.dropWhile _ (List.rdropWhile _ (h ++ w)) =
    List.dropWhile _ (List.rdropWhile _ h)
  rw [rdropWhile_append_all _ w hw h]

theorem mapStrip_appendLast (w : List Char)
    (hw : ∀ c ∈ w, pyWhitespaceChars.contains c = true) :
    ∀ l : List (List Char), l ≠ [] →
      (appendLast w l).map pyStrip = l.map pyStrip := by
  intro l
  induction l with
  | nil => intro h; exact absurd rfl h
  | cons h1 r ih =>
    intro _
    cases r with
    | nil =>
      show [pyStrip (h1 ++ w)] = [pyStrip h1]
      rw [pyStrip_append_ws h1 w hw]
    | cons h2 r' =>
      show pyStrip h1 :: (appendLast w (h2 :: r')).map pyStrip =
        pyStrip h1 :: (h2 :: r').map pyStrip
      rw [ih (by simp)]

theorem rdropWhile_append_rtakeWhile (p : Char → Bool) (l : List Char) :
    List.rdropWhile p l ++ List.rtakeWhile p l = l := by
  rw [List.rdropWhile, List.rtakeWhile, ← List.reverse_append,
    List.takeWhile_append_dropWhile, List.reverse_reverse]

theorem mapStrip_split_rdrop (l : List Char) :
    (pySplitChar ','
        (List.rdropWhile (fun c => pyWhitespaceChars.contains c) l)).map pyStrip =
      (pySplitChar ',' l).map pyStrip := by
  have hmem : ∀ c ∈ List.rtakeWhile (fun c => pyWhitespaceChars.contains c) l,
      pyWhitespaceChars.contains c = true :=
    fun c hc => List.mem_rtakeWhile_imp hc
  have hsep : ',' ∉ List.rtakeWhile (fun c => pyWhitespaceChars.contains c) l := by
    intro hin
    have := hmem ',' hin
    simp [pyWhitespaceChars] at this
  conv_rhs => rw [← rdropWhile_append_rtakeWhile
    (fun c => pyWhitespaceChars.contains c) l]
  rw [pySplitChar_append_no_sep ',' _ hsep,
    mapStrip_appendLast _ hmem _ (pySplitChar_ne_nil ',' _)]

theorem mapStrip_split_dropWhile :
    ∀ l : List Char,
      (pySplitChar ','
          (List.dropWhile (fun c => pyWhitespaceChars.contains c) l)).map pyStrip =
        (pySplitChar ',' l).map pyStrip := by
  intro l
  induction l with
  | nil => rfl
  | cons c t ih =>
    rw [List.dropWhile_cons]
    by_cases hc : pyWhitespaceChars.contains c = true
    · rw [if_pos hc, ih]
      have hcsep : c ≠ ',' := by
        intro rfl2
        subst rfl2
        simp [pyWhitespaceChars] at hc
      cases h : pySplitChar ',' t with
      | nil => exact absurd h (pySplitChar_ne_nil ',' t)
      | cons x xs =>
        rw [pySplitChar_cons_ne ',' c t x xs hcsep h]
        simp only [List.map_cons]
        rw [pyStrip_cons_ws c x hc]
    · rw [if_neg hc]

/-- Counterexample to C9 as stated: on the response "a\nb,c" the code first
removes every newline character (main.py line 300: .replace("\n", "")),
yielding the tag "ab", whereas splitting on commas and trimming each entry
as the claim describes yields "a\nb": the parsed list is not obtained by
split-trim-drop alone. -/
theorem claim_C9_counterexample :
    parseTags "a\nb,c".data = ["ab".data, "c".data] ∧
    parseTagsSpec "a\nb,c".data = ["a\nb".data, "c".data] ∧
    parseTags "a\nb,c".data ≠ parseTagsSpec "a\nb,c".data := by
  refine ⟨by decide, by decide, by decide⟩

/-- Claim C9 amended: for responses containing no newline character the
parsed tag list is exactly split-on-commas, trim-each-entry, drop-empties;
in general the code additionally deletes every newline character (even
inside an entry) before splitting. -/
theorem claim_C9_amended (t : List Char) (h : '\n' ∉ t) :
    parseTags t = parseTagsSpec t := by
  unfold parseTags parseTagsSpec
  have hfilter : (pyStrip t).filter (fun c => c ≠ '\n') = pyStrip t := by
    apply List.filter_eq_self.mpr
    intro a ha
    have hat : a ∈ t := stripChars_subset pyWhitespaceChars t ha
    simp only [ne_eq, decide_eq_true_eq]
    intro rfl2
    exact h (rfl2 ▸ hat)
  rw [hfilter]
  apply congrArg (List.filter _)
  have hstrip : pyStrip t =
      List.dropWhile (fun c => pyWhitespaceChars.contains c)
        (List.rdropWhile (fun c => pyWhitespaceChars.contains c) t) := rfl
  rw [hstrip, mapStrip_split_dropWhile, mapStrip_split_rdrop]

/-- Witness for the amended C9 on a newline-free response with spaces and
an empty entry. -/
theorem claim_C9_amended_witness :
    ('\n' ∉ " a, b ,,c ".data) ∧
    parseTags " a, b ,,c ".data = parseTagsSpec " a, b ,,c ".data :=
  ⟨by decide, claim_C9_amended (" a, b ,,c ".data) (by decide)⟩

end GifAutomator
